import Mathlib

/-!
Verification development for the Cisco Catalyst SDWAN async client
(`vmanage_async.py`).  The Python code is shallowly embedded: JSON values
are modelled by the mutual inductive `JVal`/`JArr`/`JObj`; Python `dict`s
with string keys are association lists with Python's insertion/update and
`|`-union semantics; the out-of-scope JSON library is modelled by the
serializer `serJ` together with the round-trip assumption
`json.loads (serJ v) = v` (responses are therefore passed around as the
structured value, and the raw text the client inspects is `serJ` of it);
Python exceptions are the `Except PyExn` monad; the asyncio
semaphore/gather executor of `get_all` is a small-step transition relation.
-/

mutual

/-- JSON values, as produced by `json.loads`.  Arrays and objects are
mutual inductives (rather than nested `List`s) so that all recursions
below are structural and kernel-computable.  Python floats only ever flow
through this client unexamined, so numbers are modelled by `Int`. -/
inductive JVal : Type where
  | jnull : JVal
  | jbool : Bool → JVal
  | jnum : Int → JVal
  | jstr : String → JVal
  | jarr : JArr → JVal
  | jobj : JObj → JVal
deriving DecidableEq

/-- JSON arrays (see `JVal`). -/
inductive JArr : Type where
  | anil : JArr
  | acons : JVal → JArr → JArr
deriving DecidableEq

/-- JSON objects: ordered key/value pairs, as Python dicts are. -/
inductive JObj : Type where
  | onil : JObj
  | ocons : String → JVal → JObj → JObj
deriving DecidableEq

end

/-- Convert a JSON array to a Lean list (Python iteration over a list). -/
def JArr.toListA : JArr → List JVal
  | .anil => []
  | .acons v t => v :: JArr.toListA t

/-- Subscript-style lookup `o[key]` on a JSON object (first matching key). -/
def JObj.olookup : JObj → String → Option JVal
  | .onil, _ => none
  | .ocons k v t, key => if k == key then some v else JObj.olookup t key

/-- Python `key in o` for a JSON object. -/
def JObj.ocontains (o : JObj) (key : String) : Bool :=
  (o.olookup key).isSome

/-- Concatenation of JSON objects (helper for `ounion`). -/
def JObj.oappend : JObj → JObj → JObj
  | .onil, b => b
  | .ocons k v t, b => .ocons k v (JObj.oappend t b)

/-- The entries of `a` with each value replaced by `b`'s value when `b`
also has the key (the left part of Python's `a | b`). -/
def JObj.overrideBy : JObj → JObj → JObj
  | .onil, _ => .onil
  | .ocons k v t, b => .ocons k ((b.olookup k).getD v) (JObj.overrideBy t b)

/-- The entries of the first object whose key is absent from the second
(the right part of Python's `a | b`). -/
def JObj.keepNew : JObj → JObj → JObj
  | .onil, _ => .onil
  | .ocons k v t, a =>
    if a.ocontains k then JObj.keepNew t a else .ocons k v (JObj.keepNew t a)

/-- Python `a | b` on dicts: keys of `a` in order with `b`'s values taking
precedence, then `b`'s new keys in `b`'s order. -/
def JObj.ounion (a b : JObj) : JObj :=
  JObj.oappend (a.overrideBy b) (b.keepNew a)

/-- Lookup in a string-keyed association list (outer Python dicts such as
`controllers`, `vedges`, `statuses`, `devices`). -/
def dlookup {β : Type} : List (String × β) → String → Option β
  | [], _ => none
  | p :: t, key => if p.1 == key then some p.2 else dlookup t key

/-- Python `key in d`. -/
def dcontains {β : Type} (d : List (String × β)) (key : String) : Bool :=
  (dlookup d key).isSome

/-- Python `d[k] = v`: replace in place when the key exists, else append. -/
def dinsert {β : Type} (d : List (String × β)) (key : String) (v : β) :
    List (String × β) :=
  if dcontains d key then d.map (fun p => if p.1 == key then (key, v) else p)
  else d ++ [(key, v)]

/-- Left part of Python `a | b` on outer dicts. -/
def doverride {β : Type} (a b : List (String × β)) : List (String × β) :=
  a.map (fun p => match dlookup b p.1 with
    | some w => (p.1, w)
    | none => p)

/-- Entries of the first dict whose key is absent from the second. -/
def dkeepNew {β : Type} (b a : List (String × β)) : List (String × β) :=
  b.filter (fun p => !(dcontains a p.1))

/-- Python `a | b` on outer dicts. -/
def dunion {β : Type} (a b : List (String × β)) : List (String × β) :=
  doverride a b ++ dkeepNew b a

/-- Test that the char list `p` is a prefix of `s`. -/
def isPrefixOfC : List Char → List Char → Bool
  | [], _ => true
  | _ :: _, [] => false
  | a :: p, b :: s => a == b && isPrefixOfC p s

/-- Python `p in s` on strings: `p` occurs as a contiguous substring. -/
def hasSub (p : List Char) : List Char → Bool
  | [] => isPrefixOfC p []
  | c :: t => isPrefixOfC p (c :: t) || hasSub p t

/-- Fuelled scan implementing Python `str.replace`: replace every
non-overlapping occurrence of `p` by `r`, scanning left to right.  The
fuel is structurally decreasing; `replaceAllC` supplies `s.length`, which
is enough because every step consumes at least one character. -/
def replaceAllF (p r : List Char) : Nat → List Char → List Char
  | _, [] => []
  | 0, s => s
  | n + 1, c :: t =>
    if isPrefixOfC p (c :: t) && !p.isEmpty then
      r ++ replaceAllF p r n (List.drop (p.length - 1) t)
    else
      c :: replaceAllF p r n t

/-- Python `s.replace(p, r)` on char lists (for nonempty `p`). -/
def replaceAllC (p r s : List Char) : List Char :=
  replaceAllF p r s.length s

/-- Python `s.replace(old, new)`. -/
def pyReplace (s old new : String) : String :=
  String.mk (replaceAllC old.toList new.toList s.toList)

/-- The model-string post-processing applied by `Vmanage.get_devices`
(line 192): `v["deviceModel"].replace("vedge-", "").replace("cloud", "vbond")`. -/
def normalizeModel (s : String) : String :=
  pyReplace (pyReplace s "vedge-" "") "cloud" "vbond"

/-- Python exceptions that the client's code paths can raise. -/
inductive PyExn : Type where
  | connectionError : PyExn
  | keyError : PyExn
  | typeError : PyExn
  | attributeError : PyExn
  | valueError : PyExn
deriving DecidableEq

mutual

/-- Rendering of a JSON value to text, standing in for the out-of-scope
JSON library: the text of an HTTP response whose parsed body is `v` is
`serJ v`, and `json.loads` on that text gives back `v`. -/
def serJ : JVal → List Char
  | .jnull => "null".toList
  | .jbool b => (if b then "true" else "false").toList
  | .jnum n => (toString n).toList
  | .jstr s => '\"' :: s.toList ++ ['\"']
  | .jarr l => '[' :: serA l ++ [']']
  | .jobj o => '\x7b' :: serO o ++ ['\x7d']

/-- Rendering of an array's elements. -/
def serA : JArr → List Char
  | .anil => []
  | .acons v t => serJ v ++ serASep t

/-- Rendering of an array's elements after the first (with separators). -/
def serASep : JArr → List Char
  | .anil => []
  | .acons v t => ',' :: ' ' :: (serJ v ++ serASep t)

/-- Rendering of an object's entries. -/
def serO : JObj → List Char
  | .onil => []
  | .ocons k v t => '\"' :: k.toList ++ '\"' :: ':' :: ' ' :: serJ v ++ serOSep t

/-- Rendering of an object's entries after the first (with separators). -/
def serOSep : JObj → List Char
  | .onil => []
  | .ocons k v t =>
    ',' :: ' ' :: ('\"' :: k.toList ++ '\"' :: ':' :: ' ' :: serJ v ++ serOSep t)

end

/-- One rendered `"key": value` entry of a rendered object (abbreviation used in
lemma statements; `serO` unfolds to it definitionally). -/
def serEntry (k : String) (v : JVal) : List Char :=
  '\"' :: k.toList ++ '\"' :: ':' :: ' ' :: serJ v

/-- An HTTP response at the transport boundary: status code and parsed
JSON body (the raw text the code sees is `serJ body`). -/
structure HttpResp : Type where
  status : Nat
  body : JVal

/-- A response of the form-login endpoint: status, raw text, and the
`Set-Cookie` header when present. -/
structure LoginResp : Type where
  status : Nat
  text : String
  setCookie : Option String

/-- A response of the CSRF-token endpoint. -/
structure TokenResp : Type where
  status : Nat
  text : String

/-- Python `str.startswith`. -/
def pyStartsWith (s pre : String) : Bool :=
  isPrefixOfC pre.toList s.toList

/-- Python subscripting `v["k"]`: field access on an object, `KeyError`
when the key is absent, `TypeError` when `v` is not a dict (indexing a
list, string, number or `None` with a string key). -/
def jindexStr (v : JVal) (k : String) : Except PyExn JVal :=
  match v with
  | .jobj o =>
    match o.olookup k with
    | some w => .ok w
    | none => .error .keyError
  | _ => .error .typeError

/-- Subscript `o[k]` on a JSON object. -/
def oindex (o : JObj) (k : String) : Except PyExn JVal :=
  match o.olookup k with
  | some w => .ok w
  | none => .error .keyError

/-- Python truthiness of a JSON value (`if not raw_data`). -/
def jvalFalsy : JVal → Bool
  | .jnull => true
  | .jbool b => !b
  | .jnum n => n == 0
  | .jstr s => s.isEmpty
  | .jarr .anil => true
  | .jarr (.acons _ _) => false
  | .jobj .onil => true
  | .jobj (.ocons _ _ _) => false

/-- Python truthiness of an optional JSON value (`None` is falsy). -/
def pyFalsy : Option JVal → Bool
  | none => true
  | some v => jvalFalsy v

/-- The character list of the needle in the source's membership test (line 151)
membership test (`Vmanage.get`, line 151). -/
def dataNeedle : List Char := "data".toList

namespace Vmanage

/-- Default of the constructor's `semaphore` parameter (line 74). -/
def semaphoreDefault : Nat := 40

/-- Model of `Vmanage.__login` (lines 86-120).  Transport failures of either
request are `httpx.HTTPError`s, re-raised as `ConnectionError`; the
handshake succeeds exactly when the login response is 200 with a non-HTML
body, a `Set-Cookie` header is present, and the token response is 200.
reading the cookie header raises
`AttributeError` when the header is absent (`None.split`). -/
def login (loginR : Except Unit LoginResp) (tokenR : Except Unit TokenResp) :
    Except PyExn Bool :=
  match loginR with
  | .error _ => .error .connectionError
  | .ok r =>
    if r.status == 200 && !(pyStartsWith r.text "<html>") then
      match r.setCookie with
      | none => .error .attributeError
      | some _ =>
        match tokenR with
        | .error _ => .error .connectionError
        | .ok t => if t.status == 200 then .ok true else .ok false
    else
      .ok false

/-- Model of `Vmanage.get` (lines 149-151), composed with the private `__get`
(lines 123-133).  The returned `Bool` records whether network I/O was
attempted.  `__get` short-circuits to `None` when not connected, raises
`ConnectionError` on transport failure, and returns the response text on
status 200 (else `None`); `get` then evaluates
the expression selecting the data field when the raw text is truthy and
contains the characters of the word data, so the membership test is a
substring test on the text and the subsequent subscript can raise. -/
def get (connected : Bool) (resp : Except Unit HttpResp) :
    Bool × Except PyExn (Option JVal) :=
  if connected then
    match resp with
    | .error _ => (true, .error .connectionError)
    | .ok r =>
      if r.status == 200 then
        let text := serJ r.body
        if !text.isEmpty && hasSub dataNeedle text then
          (true, (jindexStr r.body "data").map some)
        else (true, .ok none)
      else (true, .ok none)
  else (false, .ok none)

/-- Model of `Vmanage.post` (lines 154-156) composed with `__post` (lines 136-146):
as `get`, but the data field is selected whenever the text is truthy —
there is no membership test before indexing. -/
def post (connected : Bool) (resp : Except Unit HttpResp) :
    Bool × Except PyExn (Option JVal) :=
  if connected then
    match resp with
    | .error _ => (true, .error .connectionError)
    | .ok r =>
      if r.status == 200 then
        let text := serJ r.body
        if !text.isEmpty then
          (true, (jindexStr r.body "data").map some)
        else (true, .ok none)
      else (true, .ok none)
  else (false, .ok none)

end Vmanage

/-- Digit value of a character (used on chars known to be digits). -/
def digitVal (c : Char) : Nat := c.toNat - 48

/-- Decimal value of a digit string. -/
def digitsToNat (cs : List Char) : Nat :=
  cs.foldl (fun a c => a * 10 + digitVal c) 0

/-- Split a char list at `.` separators (like Python string split on a dot). -/
def splitDots : List Char → List (List Char)
  | [] => [[]]
  | c :: t =>
    if c == '.' then [] :: splitDots t
    else
      match splitDots t with
      | [] => [[c]]
      | p :: rest => (c :: p) :: rest

/-- One dotted-quad octet as accepted by the out-of-scope
`ipaddress.IPv4Address` parser: 1-3 decimal digits, no leading zero,
value at most 255. -/
def validOctet (cs : List Char) : Option Nat :=
  if !cs.isEmpty && cs.all (fun c => c.isDigit) && decide (cs.length ≤ 3)
      && (decide (cs.length = 1) || !(cs.head? == some '0'))
      && decide (digitsToNat cs ≤ 255) then
    some (digitsToNat cs)
  else none

/-- An IPv4 address as four octets. -/
structure IPv4Addr : Type where
  o1 : Nat
  o2 : Nat
  o3 : Nat
  o4 : Nat
deriving DecidableEq

/-- Model of `ipaddress.IPv4Address(s)` for a string argument; a malformed address
raises `AddressValueError`, a subclass of `ValueError`. -/
def parseIPv4 (s : String) : Except PyExn IPv4Addr :=
  match (splitDots s.toList).mapM validOctet with
  | some [a, b, c, d] => .ok ⟨a, b, c, d⟩
  | _ => .error .valueError

/-- Model of `ipaddress.IPv4Address(v)` on a JSON value: strings are parsed as
dotted quads, integers in range are converted, anything else raises. -/
def toIPv4 (v : JVal) : Except PyExn IPv4Addr :=
  match v with
  | .jstr s => parseIPv4 s
  | .jnum n =>
    if 0 ≤ n ∧ n < 4294967296 then
      let m := n.toNat
      .ok ⟨m / 16777216 % 256, m / 65536 % 256, m / 256 % 256, m % 256⟩
    else .error .valueError
  | _ => .error .valueError

/-- An IPv4 network: network address (host bits cleared) and prefix. -/
structure IPv4Net : Type where
  addr : IPv4Addr
  prefixLen : Nat
deriving DecidableEq

/-- Netmask octets to prefix length: the 32-bit value must consist of
ones followed by zeroes (`ipaddress` rejects other masks). -/
def netmaskBits (a b c d : Nat) : Except PyExn Nat :=
  let m := ((a * 256 + b) * 256 + c) * 256 + d
  match (List.range 33).find? (fun p => m == 4294967296 - 2 ^ (32 - p)) with
  | some p => .ok p
  | none => .error .valueError

/-- The mask part after `/` in an `IPv4Network` constructor string:
either a dotted-quad netmask or a decimal prefix length. -/
def parseMaskBits (v : JVal) : Except PyExn Nat :=
  match v with
  | .jstr s =>
    match (splitDots s.toList).mapM validOctet with
    | some [a, b, c, d] => netmaskBits a b c d
    | _ =>
      if !s.toList.isEmpty && s.toList.all (fun c => c.isDigit)
          && decide (digitsToNat s.toList ≤ 32) then
        .ok (digitsToNat s.toList)
      else .error .valueError
  | .jnum n => if 0 ≤ n ∧ n ≤ 32 then .ok n.toNat else .error .valueError
  | _ => .error .valueError

/-- Clear the host bits of `ip` for prefix length `p`. -/
def applyMask (ip : IPv4Addr) (p : Nat) : IPv4Addr :=
  let n := ((ip.o1 * 256 + ip.o2) * 256 + ip.o3) * 256 + ip.o4
  let keep := n / 2 ^ (32 - p) * 2 ^ (32 - p)
  ⟨keep / 16777216 % 256, keep / 65536 % 256, keep / 256 % 256, keep % 256⟩

/-- Model of the network construction from the two raw JSON
fields: parse the address, parse the mask, and clear host bits (the
non-strict constructor masks them off instead of rejecting them). -/
def mkIPv4Network (ipv maskv : JVal) : Except PyExn IPv4Net := do
  let ip ← match ipv with
    | .jstr s => parseIPv4 s
    | _ => .error .valueError
  let p ← parseMaskBits maskv
  .ok ⟨applyMask ip p, p⟩

/-- The `DeviceData` dataclass (lines 16-33).  Fields that the Python
code stores unexamined keep type `JVal`; `latitude`/`longitude` default
to the float `0.0`, modelled as `JVal.jnum 0` (the client never computes
with them). -/
structure DeviceData : Type where
  uuid : JVal
  persona : JVal
  system_ip : Option IPv4Addr
  hostname : Option JVal
  site_id : Option JVal
  model : Option String
  version : Option JVal
  template_id : Option JVal
  template_name : Option JVal
  is_managed : Bool
  is_valid : Bool
  is_sync : Bool
  is_reachable : Bool
  raw_data : JObj
  latitude : JVal
  longitude : JVal
deriving DecidableEq

/-- Python `v == "s"` for a JSON value against a string literal. -/
def jvalBeqStr (v : JVal) (s : String) : Bool :=
  match v with
  | .jstr t => t == s
  | _ => false

/-- The body of the `DeviceData(...)` construction in
`Vmanage.get_devices` (lines 186-203), for one merged raw record `o`.
Fields are computed in the Python argument-evaluation order; `v["uuid"]`,
`v["personality"]` and `v["validity"]` are unconditional subscripts and
raise `KeyError` when absent, every other field is presence-checked. -/
def parseDeviceObj (o : JObj) : Except PyExn DeviceData := do
  let u ← oindex o "uuid"
  let p ← oindex o "personality"
  let sip ← match o.olookup "system-ip" with
    | some x => (toIPv4 x).map some
    | none => pure none
  let mdl ← match o.olookup "deviceModel" with
    | some (.jstr s) => pure (some (normalizeModel s))
    | some _ => .error .attributeError
    | none => pure none
  let managed := match o.olookup "managed-by" with
    | some x => !(jvalBeqStr x "Unmanaged")
    | none => false
  let validity ← oindex o "validity"
  .ok ⟨u, p, sip, o.olookup "host-name", o.olookup "site-id", mdl,
    o.olookup "version", o.olookup "templateId", o.olookup "template",
    managed, jvalBeqStr validity "valid",
    (match o.olookup "configStatusMessage" with
     | some x => jvalBeqStr x "In Sync"
     | none => false),
    (match o.olookup "reachability" with
     | some x => jvalBeqStr x "reachable"
     | none => false),
    o,
    (o.olookup "latitude").getD (.jnum 0),
    (o.olookup "longitude").getD (.jnum 0)⟩

/-- Subscript `v["uuid"]` on a raw record used as a dict key: Python subscripts
the element and keys the dict by the result.  Records are JSON objects;
the API's `uuid` values are strings, and the model keys the outer dicts
by that string. -/
def uuidKeyOf (e : JVal) : Except PyExn String :=
  match e with
  | .jobj o =>
    match o.olookup "uuid" with
    | some (.jstr u) => .ok u
    | some _ => .error .typeError
    | none => .error .keyError
  | _ => .error .typeError

/-- Fold of the dict comprehension `{ e["uuid"]: e for e in l }`. -/
def buildGo : List JVal → List (String × JVal) → Except PyExn (List (String × JVal))
  | [], acc => .ok acc
  | e :: t, acc => do
    let u ← uuidKeyOf e
    buildGo t (dinsert acc u e)

/-- The dict comprehension keying by uuid (lines 173-175): iterating
`None` (the absent result) or any non-list payload raises `TypeError`. -/
def buildByUuid (d : Option JVal) : Except PyExn (List (String × JVal)) :=
  match d with
  | some (.jarr l) => buildGo l.toListA []
  | some _ => .error .typeError
  | none => .error .typeError

/-- Python `merged[e] | statuses[e]` on two raw records (dict union;
`TypeError` unless both are dicts). -/
def junion (a b : JVal) : Except PyExn JVal :=
  match a, b with
  | .jobj x, .jobj y => .ok (.jobj (JObj.ounion x y))
  | _, _ => .error .typeError

/-- The status-overlay loop of `get_devices` (lines 179-181): for every
key of `merged` that is also in `statuses`, replace the value by
`merged[e] | statuses[e]`. -/
def overlayStatuses (statuses : List (String × JVal)) :
    List (String × JVal) → Except PyExn (List (String × JVal))
  | [] => .ok []
  | p :: t => do
    let w ← match dlookup statuses p.1 with
      | some sv => junion p.2 sv
      | none => .ok p.2
    let rest ← overlayStatuses statuses t
    .ok ((p.1, w) :: rest)

/-- The merge stage of `get_devices` (lines 178-181):
`merged = controllers | vedges` followed by the status overlay. -/
def mergeRaw (controllers vedges statuses : List (String × JVal)) :
    Except PyExn (List (String × JVal)) :=
  overlayStatuses statuses (dunion controllers vedges)

/-- The `DeviceData(...)` call on a merged record: subscripting a non-dict record
raises `TypeError`. -/
def parseDeviceObjOf (v : JVal) : Except PyExn DeviceData :=
  match v with
  | .jobj o => parseDeviceObj o
  | _ => .error .typeError

/-- The output-building loop of `get_devices` (lines 184-203):
`devices[v["uuid"]] = DeviceData(...)` for each merged record. -/
def devicesGo : List (String × JVal) → List (String × DeviceData) →
    Except PyExn (List (String × DeviceData))
  | [], acc => .ok acc
  | p :: t, acc => do
    let dd ← parseDeviceObjOf p.2
    let u ← uuidKeyOf p.2
    devicesGo t (dinsert acc u dd)

/-- Model of `Vmanage.get_devices` (lines 167-204).  The three endpoint responses
are fetched through `get` (the concurrent submission via `get_all` is
modelled separately by the executor relation; `gather` returns the three
results positionally, which is what this definition consumes).  The
`Bool` records whether any network I/O was attempted. -/
def Vmanage.get_devices (connected : Bool) (r0 r1 r2 : Except Unit HttpResp) :
    Bool × Except PyExn (List (String × DeviceData)) :=
  let g0 := Vmanage.get connected r0
  let g1 := Vmanage.get connected r1
  let g2 := Vmanage.get connected r2
  (g0.1 || g1.1 || g2.1, do
    let d0 ← g0.2
    let d1 ← g1.2
    let d2 ← g2.2
    let controllers ← buildByUuid d0
    let vedges ← buildByUuid d1
    let statuses ← buildByUuid d2
    let merged2 ← mergeRaw controllers vedges statuses
    devicesGo merged2 [])

/-- The `InterfaceData` dataclass (lines 36-45). -/
structure InterfaceData : Type where
  if_name : JVal
  if_desc : JVal
  if_type : JVal
  if_mac : JVal
  vpn_id : JVal
  ip : IPv4Addr
  network : IPv4Net
  raw_data : JObj
deriving DecidableEq

/-- The `VrrpData` dataclass (lines 48-56). -/
structure VrrpData : Type where
  if_name : JVal
  group : JVal
  priority : JVal
  preempt : JVal
  master : Bool
  ip : IPv4Addr
  raw_data : JObj
deriving DecidableEq

/-- The `TlocData` dataclass (lines 59-69). -/
structure TlocData : Type where
  site_id : JVal
  system_ip : IPv4Addr
  private_ip : IPv4Addr
  public_ip : IPv4Addr
  preference : JVal
  weight : JVal
  encapsulation : JVal
  color : String
  raw_data : JObj
deriving DecidableEq

/-- The `InterfaceData(...)` construction in `get_device_interfaces`
(lines 213-224), in Python argument-evaluation order.
`raw_interface.get("description","N/A")` never raises. -/
def parseInterface (e : JVal) : Except PyExn InterfaceData :=
  match e with
  | .jobj o => do
    let n ← oindex o "ifname"
    let ty ← oindex o "interface-type"
    let mac ← oindex o "hwaddr"
    let vpn ← oindex o "vpn-id"
    let ipv ← oindex o "ip-address"
    let ip ← toIPv4 ipv
    let maskv ← oindex o "ipv4-subnet-mask"
    let net ← mkIPv4Network ipv maskv
    .ok ⟨n, (o.olookup "description").getD (.jstr "N/A"), ty, mac, vpn, ip, net, o⟩
  | _ => .error .typeError

/-- The `TlocData(...)` construction in `get_device_tlocs`
(lines 234-246), in Python argument-evaluation order; `tloc["color"]`
must be a string for `.lower()` (else `AttributeError`). -/
def parseTloc (e : JVal) : Except PyExn TlocData :=
  match e with
  | .jobj o => do
    let site ← oindex o "site-id"
    let sysv ← oindex o "ip"
    let sys ← toIPv4 sysv
    let privv ← oindex o "tloc-private-ip"
    let priv ← toIPv4 privv
    let pubv ← oindex o "tloc-public-ip"
    let pub ← toIPv4 pubv
    let pref ← oindex o "preference"
    let wt ← oindex o "weight"
    let encap ← oindex o "encap"
    let colorv ← oindex o "color"
    let color ← match colorv with
      | .jstr s => pure s.toLower
      | _ => .error .attributeError
    .ok ⟨site, sys, priv, pub, pref, wt, encap, color, o⟩
  | _ => .error .typeError

/-- The per-element body of `get_device_vrrp` (lines 256-271): the
`master` flag collapses `vip["vrrp-state"] == "proto-state-master"`
(computed before the constructor call), then `VrrpData(...)` in Python
argument-evaluation order. -/
def parseVrrp (e : JVal) : Except PyExn VrrpData :=
  match e with
  | .jobj o => do
    let st ← oindex o "vrrp-state"
    let master := jvalBeqStr st "proto-state-master"
    let n ← oindex o "if-name"
    let ipv ← oindex o "virtual-ip"
    let ip ← toIPv4 ipv
    let grp ← oindex o "group-id"
    let prio ← oindex o "priority"
    let pre ← oindex o "preempt"
    .ok ⟨n, grp, prio, pre, master, ip, o⟩
  | _ => .error .typeError

/-- Shared shape of the three per-device normalizers (lines 207-272):
`raw_data = await self.get(...)`; `if not raw_data: return None` (note
the Python falsiness test conflates `None` with an empty list); else map
every element.  Iterating a truthy non-list payload raises `TypeError`. -/
def normalizeList {γ : Type} (parse : JVal → Except PyExn γ)
    (got : Bool × Except PyExn (Option JVal)) :
    Bool × Except PyExn (Option (List γ)) :=
  match got with
  | (io, .error e) => (io, .error e)
  | (io, .ok raw) =>
    (io,
      if pyFalsy raw then .ok none
      else match raw with
        | some (.jarr l) => (l.toListA.mapM parse).map some
        | _ => .error .typeError)

/-- Model of `Vmanage.get_device_interfaces` (lines 207-225).  The owning device
only contributes the `deviceId` query parameter, which does not affect
the modelled response behaviour. -/
def Vmanage.get_device_interfaces (connected : Bool)
    (resp : Except Unit HttpResp) :
    Bool × Except PyExn (Option (List InterfaceData)) :=
  normalizeList parseInterface (Vmanage.get connected resp)

/-- Model of `Vmanage.get_device_tlocs` (lines 228-247). -/
def Vmanage.get_device_tlocs (connected : Bool) (resp : Except Unit HttpResp) :
    Bool × Except PyExn (Option (List TlocData)) :=
  normalizeList parseTloc (Vmanage.get connected resp)

/-- Model of `Vmanage.get_device_vrrp` (lines 250-272). -/
def Vmanage.get_device_vrrp (connected : Bool) (resp : Except Unit HttpResp) :
    Bool × Except PyExn (Option (List VrrpData)) :=
  normalizeList parseVrrp (Vmanage.get connected resp)

/-- The read of index 0 under the blanket exception handler of
`get_device_template_values` (lines 286-289): index 0 of a list or a
nonempty string succeeds, every other failure is swallowed to `None`. -/
def tryIndexZero : Option JVal → Option JVal
  | some (.jarr (.acons v _)) => some v
  | some (.jstr s) =>
    match s.toList with
    | c :: _ => some (.jstr (String.mk [c]))
    | [] => none
  | _ => none

/-- Model of `Vmanage.get_device_template_values` (lines 275-289): short-circuits
to `None` when `device.uuid` or `device.template_id` is falsy, otherwise
POSTs and best-effort reads index 0 of the payload. -/
def Vmanage.get_device_template_values (connected : Bool) (dev : DeviceData)
    (resp : Except Unit HttpResp) : Bool × Except PyExn (Option JVal) :=
  if jvalFalsy dev.uuid || pyFalsy dev.template_id then (false, .ok none)
  else
    match Vmanage.post connected resp with
    | (io, .error e) => (io, .error e)
    | (io, .ok raw) => (io, .ok (tryIndexZero raw))

/-- Status of one wrapped operation inside `get_all`'s
`sem_task(task) = async with semaphore: return await task` (lines
161-163): not yet admitted by the semaphore, running (holding a permit),
or finished with its value. -/
inductive TaskStat (α : Type) : Type where
  | pend : TaskStat α
  | run : TaskStat α
  | done : α → TaskStat α
deriving DecidableEq

/-- A state of the `get_all` executor (lines 159-164): the semaphore's
free-permit count and the status of each submitted operation, positional
with the input sequence. -/
structure ExecState (α : Type) : Type where
  sem : Nat
  tstat : List (TaskStat α)
deriving DecidableEq

/-- The state in which `get_all` starts: `asyncio.Semaphore(K)` full,
every operation pending. -/
def initExec {α : Type} (ops : List α) (k : Nat) : ExecState α :=
  ⟨k, ops.map (fun _ => .pend)⟩

/-- One scheduler step of `get_all`: a pending operation `i` may start
only by acquiring a free permit (`async with semaphore`), and a running
operation may finish at any time, producing `ops[i]` into its own slot
and releasing its permit.  Completion order is unconstrained: this is the
nondeterminism of the event loop. -/
inductive ExecStep {α : Type} (ops : List α) :
    ExecState α → ExecState α → Prop where
  | start (s : ExecState α) (i : Nat) (hp : s.tstat[i]? = some .pend)
      (hs : 0 < s.sem) :
      ExecStep ops s ⟨s.sem - 1, s.tstat.set i .run⟩
  | finish (s : ExecState α) (i : Nat) (v : α) (hr : s.tstat[i]? = some .run)
      (hv : ops[i]? = some v) :
      ExecStep ops s ⟨s.sem + 1, s.tstat.set i (.done v)⟩

/-- States reachable by the `get_all` executor from its initial state. -/
inductive ExecReach {α : Type} (ops : List α) (k : Nat) : ExecState α → Prop where
  | init : ExecReach ops k (initExec ops k)
  | step (s t : ExecState α) : ExecReach ops k s → ExecStep ops s t →
      ExecReach ops k t

/-- Number of operations currently in flight (holding a permit). -/
def runningCount {α : Type} (s : ExecState α) : Nat :=
  s.tstat.countP (fun st => match st with
    | .run => true
    | _ => false)

/-- All slots are filled: gather has produced every result. -/
def allFinished {α : Type} (s : ExecState α) : Bool :=
  s.tstat.all (fun st => match st with
    | .done _ => true
    | _ => false)

/-- Whether a modelled call raises an exception. -/
def exceptRaises {γ : Type} : Except PyExn γ → Bool
  | .error _ => true
  | .ok _ => false

/-- Controller record for the spec's merge scenario (device A). -/
def recA : JObj :=
  .ocons "uuid" (.jstr "A")
    (.ocons "personality" (.jstr "vmanage")
      (.ocons "validity" (.jstr "valid") .onil))

/-- Edge record for the spec's merge scenario (device B). -/
def recB : JObj :=
  .ocons "uuid" (.jstr "B")
    (.ocons "personality" (.jstr "vedge")
      (.ocons "validity" (.jstr "valid") .onil))

/-- Status record for device A, carrying the extra field `X`. -/
def recAstatus : JObj :=
  .ocons "uuid" (.jstr "A") (.ocons "X" (.jstr "x") .onil)

/-- The merged dict of the scenario: controllers `{A}`, edges `{B}`,
statuses `{A: {X}}`. -/
def mergedExample : List (String × JVal) :=
  [("A", .jobj (JObj.ounion recA recAstatus)), ("B", .jobj recB)]

/-- Controller-side record for the shared-uuid scenario. -/
def recU_ctrl : JObj :=
  .ocons "uuid" (.jstr "U")
    (.ocons "personality" (.jstr "vmanage")
      (.ocons "deviceConfig" (.jstr "old") .onil))

/-- Edge-side record for the shared-uuid scenario. -/
def recU_edge : JObj :=
  .ocons "uuid" (.jstr "U")
    (.ocons "personality" (.jstr "vedge")
      (.ocons "deviceConfig" (.jstr "new") .onil))

/-- A minimal raw record with the three unconditionally-read fields. -/
def recMinimal : JObj :=
  .ocons "uuid" (.jstr "u1")
    (.ocons "personality" (.jstr "vsmart")
      (.ocons "validity" (.jstr "valid") .onil))

/-- A raw record lacking `validity`. -/
def recNoValidity : JObj :=
  .ocons "uuid" (.jstr "u1") (.ocons "personality" (.jstr "vedge") .onil)

/-- A well-formed raw interface record. -/
def recIface : JObj :=
  .ocons "ifname" (.jstr "ge0/0")
    (.ocons "interface-type" (.jstr "iface")
      (.ocons "hwaddr" (.jstr "00:0c:29:aa:bb:cc")
        (.ocons "vpn-id" (.jstr "0")
          (.ocons "ip-address" (.jstr "10.0.0.5")
            (.ocons "ipv4-subnet-mask" (.jstr "255.255.255.0") .onil)))))

theorem countP_set_balance {α : Type} (p : α → Bool) (l : List α) :
    ∀ (i : Nat) (a b : α), l[i]? = some a →
      (l.set i b).countP p + (if p a then 1 else 0)
        = l.countP p + (if p b then 1 else 0) := by
  induction l with
  | nil => intro i a b h; simp at h
  | cons c t ih =>
    intro i a b h
    cases i with
    | zero =>
      simp at h
      subst h
      simp [List.countP_cons]
      omega
    | succ j =>
      simp at h
      have hj := ih j a b h
      simp [List.countP_cons]
      omega

theorem runningCount_initExec {α : Type} (ops : List α) (k : Nat) :
    runningCount (initExec ops k) = 0 := by
  induction ops with
  | nil => rfl
  | cons o t ih =>
    simp [initExec, runningCount, List.countP_cons] at ih ⊢


/-- Executor invariant: free permits plus in-flight operations always
equal the configured cap. -/
theorem exec_sem_invariant {α : Type} (ops : List α) (k : Nat)
    (s : ExecState α) (h : ExecReach ops k s) :
    s.sem + runningCount s = k := by
  induction h with
  | init => simp [initExec, runningCount_initExec ops k, runningCount]
  | step s t hr hstep ih =>
    cases hstep with
    | start i hp hs =>
      have hc := countP_set_balance
        (fun st => match st with | TaskStat.run => true | _ => false)
        s.tstat i TaskStat.pend TaskStat.run hp
      simp at hc
      simp [runningCount] at ih ⊢
      omega
    | finish i v hr2 hv =>
      have hc := countP_set_balance
        (fun st => match st with | TaskStat.run => true | _ => false)
        s.tstat i TaskStat.run (TaskStat.done v) hr2
      simp at hc
      simp [runningCount] at ih ⊢
      omega

theorem exec_length_invariant {α : Type} (ops : List α) (k : Nat)
    (s : ExecState α) (h : ExecReach ops k s) :
    s.tstat.length = ops.length := by
  induction h with
  | init => simp [initExec]
  | step s t hr hstep ih =>
    cases hstep with
    | start i hp hs => simpa using ih
    | finish i v hr2 hv => simpa using ih

theorem exec_done_invariant {α : Type} (ops : List α) (k : Nat)
    (s : ExecState α) (h : ExecReach ops k s) :
    ∀ (i : Nat) (v : α), s.tstat[i]? = some (TaskStat.done v) →
      ops[i]? = some v := by
  induction h with
  | init =>
    intro i v hi
    rcases List.getElem?_eq_some_iff.mp hi with ⟨h1, h2⟩
    simp [initExec] at h1 h2
  | step s t hr hstep ih =>
    intro i v hi
    cases hstep with
    | start j hp hs =>
      by_cases hij : j = i
      · subst hij
        have hlen : j < s.tstat.length := (List.getElem?_eq_some_iff.mp hp).1
        simp [List.getElem?_set_self hlen] at hi
      · rw [List.getElem?_set_ne hij] at hi
        exact ih i v hi
    | finish j w hr2 hv =>
      by_cases hij : j = i
      · subst hij
        have hlen : j < s.tstat.length := (List.getElem?_eq_some_iff.mp hr2).1
        simp [List.getElem?_set_self hlen] at hi
        subst hi
        exact hv
      · rw [List.getElem?_set_ne hij] at hi
        exact ih i v hi

/-- Claim C1: for every sequence of submitted operations and every
execution of the `get_all` executor (any admission and completion order),
once all operations have finished, the result slots are exactly the
operations' values in submission order: `result[i]` is the value of
`operations[i]`. -/
theorem claim_C1 {α : Type} (ops : List α) (k : Nat) (s : ExecState α)
    (h : ExecReach ops k s) (hdone : allFinished s = true) :
    s.tstat = ops.map TaskStat.done := by
  have hlen := exec_length_invariant ops k s h
  apply List.ext_getElem?
  intro i
  by_cases hlt : i < ops.length
  · have hlt2 : i < s.tstat.length := by omega
    obtain ⟨st, hi⟩ : ∃ st, s.tstat[i]? = some st := by
      cases hcase : s.tstat[i]? with
      | none => exact absurd (List.getElem?_eq_none_iff.mp hcase) (by omega)
      | some st => exact ⟨st, rfl⟩
    have hst := List.all_eq_true.mp hdone st (List.getElem?_mem hi)
    cases st with
    | pend => simp [allFinished] at hst
    | run => simp [allFinished] at hst
    | done v =>
      have hv := exec_done_invariant ops k s h i v hi
      rw [hi, List.getElem?_map, hv]
      rfl
  · rw [List.getElem?_eq_none (by omega), List.getElem?_map,
      List.getElem?_eq_none (by omega)]
    rfl

theorem claim_C1_witness :
    (ExecState.mk 2 [TaskStat.done (10 : Nat), TaskStat.done 20]).tstat
      = [10, 20].map TaskStat.done := by
  refine claim_C1 [10, 20] 2 _ ?_ (by rfl)
  exact ExecReach.step _ _
    (ExecReach.step _ _
      (ExecReach.step _ _
        (ExecReach.step _ _ ExecReach.init (ExecStep.start _ 0 rfl (by decide)))
        (ExecStep.start _ 1 rfl (by decide)))
      (ExecStep.finish _ 1 20 rfl rfl))
    (ExecStep.finish _ 0 10 rfl rfl)

/-- Claim C2: in every reachable state of the `get_all` executor with
concurrency cap `k`, at most `k` operations are in flight (an operation
beyond the cap can only start by acquiring one of the `k` permits, i.e.
as capacity frees); the constructor's default cap is 40. -/
theorem claim_C2 {α : Type} (ops : List α) (k : Nat) (s : ExecState α)
    (h : ExecReach ops k s) :
    runningCount s ≤ k ∧ Vmanage.semaphoreDefault = 40 := by
  have hinv := exec_sem_invariant ops k s h
  exact ⟨by omega, rfl⟩

theorem claim_C2_witness :
    runningCount (ExecState.mk 1 [TaskStat.run, TaskStat.pend] : ExecState Nat) ≤ 2
      ∧ Vmanage.semaphoreDefault = 40 :=
  claim_C2 [10, 20] 2 _
    (ExecReach.step _ _ ExecReach.init (ExecStep.start _ 0 rfl (by decide)))

theorem stringMk_toList (s : String) : String.mk s.toList = s := by
  cases s
  rfl

theorem replaceAllF_of_not_hasSub (p r : List Char) :
    ∀ (n : Nat) (s : List Char), hasSub p s = false → replaceAllF p r n s = s := by
  intro n
  induction n with
  | zero =>
    intro s hs
    cases s with
    | nil => rfl
    | cons c t => rfl
  | succ m ih =>
    intro s hs
    cases s with
    | nil => rfl
    | cons c t =>
      have hor := hs
      simp [hasSub] at hor
      simp [replaceAllF, hor.1]
      exact ih t hor.2

theorem pyReplace_of_not_hasSub (s old new : String)
    (h : hasSub old.toList s.toList = false) : pyReplace s old new = s := by
  unfold pyReplace replaceAllC
  rw [replaceAllF_of_not_hasSub old.toList new.toList s.toList.length s.toList h]
  exact stringMk_toList s

/-- Claim C8 (amended): the model normalization maps `"vedge-cloud"` to
`"vbond"` and `"vedge-2000"` to `"2000"`; it replaces the substrings
`"vedge-"` and `"cloud"` anywhere in the string (not only as a prefix),
so a string containing neither substring passes through unchanged. -/
theorem claim_C8 :
    normalizeModel "vedge-cloud" = "vbond"
    ∧ normalizeModel "vedge-2000" = "2000"
    ∧ ∀ s : String, hasSub "vedge-".toList s.toList = false →
        hasSub "cloud".toList s.toList = false → normalizeModel s = s := by
  refine ⟨by decide, by decide, ?_⟩
  intro s h1 h2
  unfold normalizeModel
  rw [pyReplace_of_not_hasSub s "vedge-" "" h1,
    pyReplace_of_not_hasSub s "cloud" "vbond" h2]

theorem claim_C8_witness :
    normalizeModel "vedge-cloud" = "vbond"
    ∧ normalizeModel "vedge-2000" = "2000"
    ∧ normalizeModel "controller" = "controller" :=
  ⟨claim_C8.1, claim_C8.2.1, claim_C8.2.2 "controller" (by decide) (by decide)⟩

/-- Claim C8 counterexample: `"cloud"` has no `"vedge-"` prefix, yet the
normalization does not leave it unchanged — it maps it to `"vbond"`
(`str.replace` substitutes everywhere, not only after a family prefix). -/
theorem claim_C8_counterexample :
    pyStartsWith "cloud" "vedge-" = false
    ∧ normalizeModel "cloud" = "vbond"
    ∧ normalizeModel "cloud" ≠ "cloud" := by
  refine ⟨by decide, by decide, ?_⟩
  decide

theorem hasSub_nil_left : ∀ (t : List Char), hasSub [] t = true
  | [] => rfl
  | _ :: t => by simp [hasSub, isPrefixOfC, hasSub_nil_left t]

theorem isPrefixOfC_append_right (p : List Char) :
    ∀ (s t : List Char), isPrefixOfC p s = true → isPrefixOfC p (s ++ t) = true := by
  induction p with
  | nil => intro s t h; rfl
  | cons a q ih =>
    intro s t h
    cases s with
    | nil => simp [isPrefixOfC] at h
    | cons b s2 =>
      simp [isPrefixOfC] at h ⊢
      exact ⟨h.1, ih s2 t h.2⟩

theorem isPrefixOfC_append_self (p t : List Char) :
    isPrefixOfC p (p ++ t) = true := by
  induction p with
  | nil => rfl
  | cons a q ih => simp [isPrefixOfC, ih]

theorem hasSub_of_prefixMatch (p s : List Char) (h : isPrefixOfC p s = true) :
    hasSub p s = true := by
  cases s with
  | nil => exact h
  | cons c t => simp [hasSub, h]

theorem hasSub_cons (p : List Char) (c : Char) (s : List Char)
    (h : hasSub p s = true) : hasSub p (c :: s) = true := by
  simp [hasSub, h]

theorem hasSub_append_left (p s1 s2 : List Char) (h : hasSub p s2 = true) :
    hasSub p (s1 ++ s2) = true := by
  induction s1 with
  | nil => exact h
  | cons c t ih => exact hasSub_cons p c (t ++ s2) ih

theorem hasSub_append_right (p : List Char) :
    ∀ (s t : List Char), hasSub p s = true → hasSub p (s ++ t) = true := by
  intro s
  induction s with
  | nil =>
    intro t h
    cases p with
    | nil => exact hasSub_nil_left t
    | cons a q => simp [hasSub, isPrefixOfC] at h
  | cons c s2 ih =>
    intro t h
    simp [hasSub] at h ⊢
    cases h with
    | inl h1 => exact Or.inl (isPrefixOfC_append_right p (c :: s2) t h1)
    | inr h2 => exact Or.inr (ih t h2)

theorem hasSub_serOSep_of_serO (p : List Char) (t : JObj)
    (h : hasSub p (serO t) = true) : hasSub p (serOSep t) = true := by
  cases t with
  | onil => exact h
  | ocons k v u =>
    exact hasSub_cons p ',' _ (hasSub_cons p ' ' _ h)

/-- A rendered object containing a `data` entry contains `"data"` as a
substring of its text. -/
theorem hasSub_serO_data : ∀ (o : JObj) (v : JVal),
    o.olookup "data" = some v → hasSub dataNeedle (serO o) = true
  | .onil, v, h => by simp [JObj.olookup] at h
  | .ocons k w t, v, h => by
    by_cases hk : k = "data"
    · subst hk
      simp only [serO]
      apply hasSub_cons
      apply hasSub_of_prefixMatch
      exact isPrefixOfC_append_self dataNeedle _
    · rw [JObj.olookup, if_neg (by simpa using hk)] at h
      simp only [serO]
      rw [List.cons_append]
      apply hasSub_cons
      apply hasSub_append_left
      exact hasSub_serOSep_of_serO dataNeedle t (hasSub_serO_data t v h)

theorem hasSub_serJ_data (o : JObj) (v : JVal)
    (h : o.olookup "data" = some v) :
    hasSub dataNeedle (serJ (.jobj o)) = true := by
  simp only [serJ]
  apply hasSub_cons
  exact hasSub_append_right dataNeedle (serO o) _ (hasSub_serO_data o v h)

/-- Claim C4 (amended): on a 200 response whose parsed body is an object
with a `data` key, `get` returns that value; on a non-200 response it
returns the absent value; on a 200 response whose raw text does not even
contain `"data"` as a substring it returns the absent value; but on a 200
response whose text contains `"data"` while the parsed object lacks the
key, `get` raises `KeyError` instead of returning the absent value,
because the membership test is a substring test on the raw text and the
subsequent subscript of the parsed body is unguarded. -/
theorem claim_C4 :
    (∀ (o : JObj) (v : JVal), o.olookup "data" = some v →
      Vmanage.get true (.ok ⟨200, .jobj o⟩) = (true, .ok (some v)))
    ∧ (∀ (st : Nat) (b : JVal), st ≠ 200 →
      Vmanage.get true (.ok ⟨st, b⟩) = (true, .ok none))
    ∧ (∀ b : JVal, hasSub dataNeedle (serJ b) = false →
      Vmanage.get true (.ok ⟨200, b⟩) = (true, .ok none))
    ∧ (∀ o : JObj, o.olookup "data" = none →
      hasSub dataNeedle (serJ (.jobj o)) = true →
      Vmanage.get true (.ok ⟨200, .jobj o⟩) = (true, .error .keyError)) := by
  refine ⟨?_, ?_, ?_, ?_⟩
  · intro o v h
    have hs := hasSub_serJ_data o v h
    simp only [serJ, List.cons_append] at hs
    simp [Vmanage.get, serJ, hs, jindexStr, h, Except.map]
  · intro st b h
    have hb : (st == 200) = false := by simpa using h
    simp [Vmanage.get, hb]
  · intro b h
    simp [Vmanage.get, h]
  · intro o h hs
    simp only [serJ, List.cons_append] at hs
    simp [Vmanage.get, serJ, hs, jindexStr, h, Except.map]

theorem claim_C4_witness :
    Vmanage.get true (.ok ⟨200, .jobj (.ocons "data" (.jarr .anil) .onil)⟩)
      = (true, .ok (some (.jarr .anil)))
    ∧ Vmanage.get true (.ok ⟨404, .jnull⟩) = (true, .ok none)
    ∧ Vmanage.get true (.ok ⟨200, .jobj .onil⟩) = (true, .ok none)
    ∧ Vmanage.get true (.ok ⟨200, .jobj (.ocons "metadata" (.jnum 1) .onil)⟩)
      = (true, .error .keyError) :=
  ⟨claim_C4.1 _ _ rfl, claim_C4.2.1 404 .jnull (by decide),
    claim_C4.2.2.1 (.jobj .onil) (by decide),
    claim_C4.2.2.2 (.ocons "metadata" (.jnum 1) .onil) rfl (by decide)⟩

/-- Claim C4 counterexample: a 200 response with body
`{"metadata": 1}` has no `data` key, so the claim says `get` returns the
absent value without raising; the code instead raises `KeyError`, since
the substring test matches inside the word metadata and the subscript of
the parsed body is then evaluated. -/
theorem claim_C4_counterexample :
    Vmanage.get true (.ok ⟨200, .jobj (.ocons "metadata" (.jnum 1) .onil)⟩)
      = (true, .error .keyError)
    ∧ Vmanage.get true (.ok ⟨200, .jobj (.ocons "metadata" (.jnum 1) .onil)⟩)
      ≠ (true, .ok none) := by
  refine ⟨rfl, ?_⟩
  intro h
  rw [show Vmanage.get true (.ok ⟨200, .jobj (.ocons "metadata" (.jnum 1) .onil)⟩)
      = (true, .error .keyError) from rfl] at h
  simp at h

/-- Claim C5 (amended): `post` returns the `data` value on a 200 response
whose parsed body contains the key, and the absent value on a non-200
response; but unlike `get` it performs no membership test at all, so on a
200 response whose body lacks the `data` key it raises `KeyError` instead
of returning the absent value. -/
theorem claim_C5 :
    (∀ (o : JObj) (v : JVal), o.olookup "data" = some v →
      Vmanage.post true (.ok ⟨200, .jobj o⟩) = (true, .ok (some v)))
    ∧ (∀ (st : Nat) (b : JVal), st ≠ 200 →
      Vmanage.post true (.ok ⟨st, b⟩) = (true, .ok none))
    ∧ (∀ o : JObj, o.olookup "data" = none →
      Vmanage.post true (.ok ⟨200, .jobj o⟩) = (true, .error .keyError)) := by
  refine ⟨?_, ?_, ?_⟩
  · intro o v h
    simp [Vmanage.post, serJ, jindexStr, h, Except.map]
  · intro st b h
    have hb : (st == 200) = false := by simpa using h
    simp [Vmanage.post, hb]
  · intro o h
    simp [Vmanage.post, serJ, jindexStr, h, Except.map]

theorem claim_C5_witness :
    Vmanage.post true (.ok ⟨200, .jobj (.ocons "data" (.jnum 3) .onil)⟩)
      = (true, .ok (some (.jnum 3)))
    ∧ Vmanage.post true (.ok ⟨500, .jnull⟩) = (true, .ok none)
    ∧ Vmanage.post true (.ok ⟨200, .jobj .onil⟩) = (true, .error .keyError) :=
  ⟨claim_C5.1 _ _ rfl, claim_C5.2.1 500 .jnull (by decide), claim_C5.2.2 .onil rfl⟩

/-- Claim C5 counterexample: a 200 response with body `{}` lacks the
`data` key; the claim says `post` returns the absent value, the code
raises `KeyError` (the data subscript has no guard). -/
theorem claim_C5_counterexample :
    Vmanage.post true (.ok ⟨200, .jobj .onil⟩) = (true, .error .keyError)
    ∧ Vmanage.post true (.ok ⟨200, .jobj .onil⟩) ≠ (true, .ok none) := by
  refine ⟨rfl, ?_⟩
  intro h
  rw [show Vmanage.post true (.ok ⟨200, .jobj .onil⟩)
      = (true, .error .keyError) from rfl] at h
  simp at h

/-- Claim C3 (amended): a rejected login (200 with an HTML body, or a
non-200 login response, or a non-200 token response after a cookie was
delivered) completes without raising and leaves the client
unauthenticated; thereafter `get`, `post` and the per-device accessors
(`get_device_interfaces`, `get_device_tlocs`, `get_device_vrrp`,
`get_device_template_values`) return the absent value without attempting
network I/O, and only transport-level failures during the handshake
raise.  `get_devices`, however, does not return the absent value: it
raises `TypeError` when unauthenticated, because it iterates the `None`
results of its three `get` calls. -/
theorem claim_C3 :
    (∀ (lr : LoginResp) (tr : Except Unit TokenResp),
      (lr.status ≠ 200 ∨ pyStartsWith lr.text "<html>" = true) →
      Vmanage.login (.ok lr) tr = .ok false)
    ∧ (∀ (lr : LoginResp) (tk : TokenResp), lr.status = 200 →
      pyStartsWith lr.text "<html>" = false → lr.setCookie.isSome = true →
      tk.status ≠ 200 → Vmanage.login (.ok lr) (.ok tk) = .ok false)
    ∧ (∀ r, Vmanage.get false r = (false, .ok none))
    ∧ (∀ r, Vmanage.post false r = (false, .ok none))
    ∧ (∀ r, Vmanage.get_device_interfaces false r = (false, .ok none))
    ∧ (∀ r, Vmanage.get_device_tlocs false r = (false, .ok none))
    ∧ (∀ r, Vmanage.get_device_vrrp false r = (false, .ok none))
    ∧ (∀ (dev : DeviceData) (r : Except Unit HttpResp),
      Vmanage.get_device_template_values false dev r = (false, .ok none))
    ∧ (∀ r0 r1 r2, Vmanage.get_devices false r0 r1 r2
        = (false, .error .typeError))
    ∧ (∀ tr, Vmanage.login (.error ()) tr = .error .connectionError) := by
  refine ⟨?_, ?_, fun r => rfl, fun r => rfl, fun r => rfl, fun r => rfl,
    fun r => rfl, ?_, fun r0 r1 r2 => rfl, fun tr => rfl⟩
  · intro lr tr hrej
    rcases hrej with h | h
    · have hb : (lr.status == 200) = false := by simpa using h
      simp [Vmanage.login, hb]
    · simp [Vmanage.login, h]
  · intro lr tk h200 hhtml hck htk
    obtain ⟨c, hc⟩ := Option.isSome_iff_exists.mp hck
    have hb : (tk.status == 200) = false := by simpa using htk
    simp [Vmanage.login, h200, hhtml, hc, hb]
  · intro dev r
    cases h : (jvalFalsy dev.uuid || pyFalsy dev.template_id) with
    | true => simp [Vmanage.get_device_template_values, h]
    | false =>
      simp [Vmanage.get_device_template_values, h, Vmanage.post, tryIndexZero]

theorem claim_C3_witness :
    Vmanage.login (.ok ⟨200, "<html>bad credentials", none⟩) (.ok ⟨200, "t"⟩)
      = .ok false
    ∧ Vmanage.login (.ok ⟨200, "ok", some "JSESSIONID=x"⟩) (.ok ⟨403, ""⟩)
      = .ok false
    ∧ Vmanage.get false (.ok ⟨200, .jnull⟩) = (false, .ok none)
    ∧ Vmanage.get_devices false (.ok ⟨200, .jnull⟩) (.ok ⟨200, .jnull⟩)
        (.ok ⟨200, .jnull⟩) = (false, .error .typeError) :=
  ⟨claim_C3.1 _ (.ok ⟨200, "t"⟩) (Or.inr (by decide)),
    claim_C3.2.1 _ ⟨403, ""⟩ rfl (by decide) rfl (by decide),
    claim_C3.2.2.1 _,
    claim_C3.2.2.2.2.2.2.2.2.1 _ _ _⟩

/-- Claim C3 counterexample: after a rejected login (HTML body with
status 200) the client is unauthenticated, and the accessor
`get_devices` does not return an absent value: it raises `TypeError`
(iterating the `None` result of `get`), contradicting "every subsequent
operation returns the absent value and does not raise". -/
theorem claim_C3_counterexample :
    Vmanage.login (.ok ⟨200, "<html>denied", some "s"⟩) (.ok ⟨200, "t"⟩) = .ok false
    ∧ Vmanage.get_devices false (.ok ⟨200, .jnull⟩) (.ok ⟨200, .jnull⟩)
        (.ok ⟨200, .jnull⟩) = (false, .error .typeError)
    ∧ exceptRaises (Vmanage.get_devices false (.ok ⟨200, .jnull⟩)
        (.ok ⟨200, .jnull⟩) (.ok ⟨200, .jnull⟩)).2 = true := by
  exact ⟨rfl, rfl, rfl⟩

theorem dlookup_append {β : Type} (a b : List (String × β)) (k : String) :
    dlookup (a ++ b) k
      = match dlookup a k with
        | some v => some v
        | none => dlookup b k := by
  induction a with
  | nil => simp [dlookup]
  | cons p t ih =>
    by_cases hk : p.1 = k
    · simp [dlookup, hk]
    · simp [dlookup, hk, ih]

theorem dlookup_doverride {β : Type} (a b : List (String × β)) (k : String) :
    dlookup (doverride a b) k
      = match dlookup a k with
        | none => none
        | some v => some ((dlookup b k).getD v) := by
  induction a with
  | nil => simp [dlookup, doverride]
  | cons p t ih =>
    by_cases hk : p.1 = k
    · subst hk
      cases hb : dlookup b p.1 with
      | none => simp [doverride, dlookup, hb]
      | some w => simp [doverride, dlookup, hb]
    · cases hb : dlookup b p.1 with
      | none => simpa [doverride, dlookup, hb, hk] using ih
      | some w => simpa [doverride, dlookup, hb, hk] using ih

theorem dlookup_dkeepNew {β : Type} (b a : List (String × β)) (k : String) :
    dlookup (dkeepNew b a) k
      = if dcontains a k then none else dlookup b k := by
  induction b with
  | nil => simp [dkeepNew, dlookup]
  | cons p t ih =>
    by_cases hk : p.1 = k
    · subst hk
      cases hc : dcontains a p.1 with
      | true => simpa [dkeepNew, dlookup, hc] using ih
      | false => simp [dkeepNew, dlookup, hc]
    · cases hc : dcontains a p.1 with
      | true => simpa [dkeepNew, dlookup, hc, hk] using ih
      | false => simpa [dkeepNew, dlookup, hc, hk] using ih

/-- Python `a | b` lookup semantics: the right operand wins. -/
theorem dlookup_dunion {β : Type} (a b : List (String × β)) (k : String) :
    dlookup (dunion a b) k
      = if dcontains b k then dlookup b k else dlookup a k := by
  rw [dunion, dlookup_append, dlookup_doverride, dlookup_dkeepNew]
  cases ha : dlookup a k with
  | none =>
    cases hb : dlookup b k with
    | none => simp [dcontains, ha, hb]
    | some w => simp [dcontains, ha, hb]
  | some v =>
    cases hb : dlookup b k with
    | none => simp [dcontains, ha, hb]
    | some w => simp [dcontains, ha, hb]

theorem dcontains_dunion {β : Type} (a b : List (String × β)) (k : String) :
    dcontains (dunion a b) k = (dcontains a k || dcontains b k) := by
  rw [dcontains, dlookup_dunion]
  cases hb : dcontains b k with
  | true =>
    simp [hb]
    exact hb
  | false =>
    simp [dcontains] at hb
    simp [dcontains, hb]

theorem olookup_oappend : ∀ (a b : JObj) (k : String),
    (JObj.oappend a b).olookup k
      = match a.olookup k with
        | some v => some v
        | none => b.olookup k
  | .onil, b, k => by simp [JObj.oappend, JObj.olookup]
  | .ocons k1 v t, b, k => by
    by_cases hk : k1 = k
    · simp [JObj.oappend, JObj.olookup, hk]
    · simp [JObj.oappend, JObj.olookup, hk, olookup_oappend t b k]

theorem olookup_overrideBy : ∀ (a b : JObj) (k : String),
    (JObj.overrideBy a b).olookup k
      = match a.olookup k with
        | none => none
        | some v => some ((b.olookup k).getD v)
  | .onil, b, k => by simp [JObj.overrideBy, JObj.olookup]
  | .ocons k1 v t, b, k => by
    by_cases hk : k1 = k
    · subst hk
      cases hb : b.olookup k1 with
      | none => simp [JObj.overrideBy, JObj.olookup, hb]
      | some w => simp [JObj.overrideBy, JObj.olookup, hb]
    · simpa [JObj.overrideBy, JObj.olookup, hk] using olookup_overrideBy t b k

theorem olookup_keepNew : ∀ (b a : JObj) (k : String),
    (JObj.keepNew b a).olookup k
      = if a.ocontains k then none else b.olookup k
  | .onil, a, k => by simp [JObj.keepNew, JObj.olookup]
  | .ocons k1 v t, a, k => by
    by_cases hk : k1 = k
    · subst hk
      cases hc : a.ocontains k1 with
      | true => simpa [JObj.keepNew, JObj.olookup, hc] using olookup_keepNew t a k1
      | false => simp [JObj.keepNew, JObj.olookup, hc]
    · cases hc : a.ocontains k1 with
      | true => simpa [JObj.keepNew, JObj.olookup, hc, hk] using olookup_keepNew t a k
      | false => simpa [JObj.keepNew, JObj.olookup, hc, hk] using olookup_keepNew t a k

/-- Python `a | b` lookup semantics on JSON objects: `b` wins. -/
theorem olookup_ounion (a b : JObj) (k : String) :
    (JObj.ounion a b).olookup k
      = if b.ocontains k then b.olookup k else a.olookup k := by
  rw [JObj.ounion, olookup_oappend, olookup_overrideBy, olookup_keepNew]
  cases ha : a.olookup k with
  | none =>
    cases hb : b.olookup k with
    | none => simp [JObj.ocontains, ha, hb]
    | some w => simp [JObj.ocontains, ha, hb]
  | some v =>
    cases hb : b.olookup k with
    | none => simp [JObj.ocontains, ha, hb]
    | some w => simp [JObj.ocontains, ha, hb]

theorem overlayStatuses_cons_ok (s : List (String × JVal)) (p : String × JVal)
    (t m2 : List (String × JVal)) (hm : overlayStatuses s (p :: t) = .ok m2) :
    ∃ w rest,
      (match dlookup s p.1 with
        | some sv => junion p.2 sv
        | none => .ok p.2) = .ok w
      ∧ overlayStatuses s t = .ok rest ∧ m2 = (p.1, w) :: rest := by
  cases hsl : dlookup s p.1 with
  | none =>
    cases hrest : overlayStatuses s t with
    | error e => simp [overlayStatuses, hsl, hrest, Bind.bind, Except.bind] at hm
    | ok rest =>
      refine ⟨p.2, rest, by simp [hsl], rfl, ?_⟩
      simp [overlayStatuses, hsl, hrest, Bind.bind, Except.bind] at hm
      simp [← hm]
  | some sv =>
    cases hj : junion p.2 sv with
    | error e => simp [overlayStatuses, hsl, hj, Bind.bind, Except.bind] at hm
    | ok w =>
      cases hrest : overlayStatuses s t with
      | error e =>
        simp [overlayStatuses, hsl, hj, hrest, Bind.bind, Except.bind] at hm
      | ok rest =>
        refine ⟨w, rest, by simp [hsl, hj], rfl, ?_⟩
        simp [overlayStatuses, hsl, hj, hrest, Bind.bind, Except.bind] at hm
        exact hm.symm

/-- The status overlay keeps the merged dict's key sequence unchanged. -/
theorem overlayStatuses_keys (s : List (String × JVal)) :
    ∀ (m m2 : List (String × JVal)), overlayStatuses s m = .ok m2 →
      m2.map Prod.fst = m.map Prod.fst := by
  intro m
  induction m with
  | nil =>
    intro m2 hm
    simp [overlayStatuses] at hm
    simp [hm.symm]
  | cons p t ih =>
    intro m2 hm
    obtain ⟨w, rest, hw, hrest, hm2⟩ := overlayStatuses_cons_ok s p t m2 hm
    subst hm2
    simp [ih rest hrest]

/-- Lookup through the status overlay: entries without a status are kept,
entries with one become the dict union with the status record. -/
theorem overlayStatuses_lookup (s : List (String × JVal)) :
    ∀ (m m2 : List (String × JVal)), overlayStatuses s m = .ok m2 →
    ∀ k : String,
      (dlookup m k = none → dlookup m2 k = none)
      ∧ (∀ w, dlookup m k = some w → dlookup s k = none → dlookup m2 k = some w)
      ∧ (∀ w sv u, dlookup m k = some w → dlookup s k = some sv →
          junion w sv = .ok u → dlookup m2 k = some u) := by
  intro m
  induction m with
  | nil =>
    intro m2 hm k
    simp [overlayStatuses] at hm
    subst hm
    refine ⟨fun _ => rfl, ?_, ?_⟩
    · intro w h
      simp [dlookup] at h
    · intro w sv u h
      simp [dlookup] at h
  | cons p t ih =>
    intro m2 hm k
    obtain ⟨w0, rest, hw, hrest, hm2⟩ := overlayStatuses_cons_ok s p t m2 hm
    subst hm2
    by_cases hk : p.1 = k
    · subst hk
      refine ⟨?_, ?_, ?_⟩
      · intro h
        simp [dlookup] at h
      · intro w h hs
        simp [dlookup] at h
        rw [hs] at hw
        simp at hw
        simp [dlookup, hw.symm.trans h]
      · intro w sv u h hs hj
        simp [dlookup] at h
        rw [hs] at hw
        simp at hw
        subst h
        rw [hj] at hw
        simp at hw
        simp [dlookup, hw]
    · have iht := ih rest hrest k
      refine ⟨?_, ?_, ?_⟩
      · intro h
        simp [dlookup, hk] at h ⊢
        exact iht.1 h
      · intro w h hs
        simp [dlookup, hk] at h ⊢
        exact iht.2.1 w h hs
      · intro w sv u h hs hj
        simp [dlookup, hk] at h ⊢
        exact iht.2.2 w sv u h hs hj

theorem doverride_keys {β : Type} (a b : List (String × β)) :
    (doverride a b).map Prod.fst = a.map Prod.fst := by
  induction a with
  | nil => rfl
  | cons p t ih =>
    cases hb : dlookup b p.1 with
    | none => simp [doverride, hb] at ih ⊢; exact ih
    | some w => simp [doverride, hb] at ih ⊢; exact ih

theorem mem_keys_iff_dcontains {β : Type} (d : List (String × β)) (k : String) :
    k ∈ d.map Prod.fst ↔ dcontains d k = true := by
  induction d with
  | nil => simp [dcontains, dlookup]
  | cons p t ih =>
    by_cases hk : p.1 = k
    · simp [dcontains, dlookup, hk]
    · simp [dcontains, dlookup, hk, Ne.symm hk] at ih ⊢
      exact ih

theorem dkeepNew_keys_not_mem {β : Type} (b a : List (String × β)) (k : String)
    (hk : dcontains a k = true) : k ∉ (dkeepNew b a).map Prod.fst := by
  intro hmem
  obtain ⟨p, hp, hpk⟩ := List.mem_map.mp hmem
  have hfil := List.of_mem_filter (by exact hp)
  rw [hpk] at hfil
  simp [hk] at hfil

theorem dunion_keys {β : Type} (a b : List (String × β)) :
    (dunion a b).map Prod.fst
      = a.map Prod.fst ++ (dkeepNew b a).map Prod.fst := by
  simp [dunion, doverride_keys]

/-- Python `a | b` has no duplicate keys when its operands do not. -/
theorem dunion_keys_nodup {β : Type} (a b : List (String × β))
    (ha : (a.map Prod.fst).Nodup) (hb : (b.map Prod.fst).Nodup) :
    ((dunion a b).map Prod.fst).Nodup := by
  rw [dunion_keys]
  rw [List.nodup_append]
  refine ⟨ha, ?_, ?_⟩
  · exact List.Nodup.sublist (List.Sublist.map Prod.fst (List.filter_sublist b)) hb
  · intro k hka hkb
    exact dkeepNew_keys_not_mem b a k ((mem_keys_iff_dcontains a k).mp hka) hkb

theorem dreplace_keys {β : Type} (d : List (String × β)) (k : String) (v : β) :
    (d.map (fun p => if p.1 == k then (k, v) else p)).map Prod.fst
      = d.map Prod.fst := by
  induction d with
  | nil => rfl
  | cons p t ih =>
    rw [List.map_cons, List.map_cons, List.map_cons, ih]
    congr 1
    by_cases hk : p.1 = k
    · simp [hk]
    · simp [hk]

theorem dinsert_keys_contains {β : Type} (d : List (String × β)) (k : String)
    (v : β) (hc : dcontains d k = true) :
    (dinsert d k v).map Prod.fst = d.map Prod.fst := by
  rw [dinsert, if_pos hc]
  exact dreplace_keys d k v

theorem dinsert_keys_nodup {β : Type} (d : List (String × β)) (k : String)
    (v : β) (h : (d.map Prod.fst).Nodup) :
    ((dinsert d k v).map Prod.fst).Nodup := by
  cases hc : dcontains d k with
  | true => rw [dinsert_keys_contains d k v hc]; exact h
  | false =>
    rw [dinsert, if_neg (by simp [hc])]
    rw [List.map_append, List.nodup_append]
    refine ⟨h, by simp, ?_⟩
    intro x hx hx2
    simp at hx2
    rw [hx2] at hx
    exact absurd ((mem_keys_iff_dcontains d k).mp hx) (by simp [hc])

/-- The devices dict built by `get_devices`' final loop never holds the
same uuid twice (`devices` is a Python dict keyed by `v["uuid"]`). -/
theorem devicesGo_nodup :
    ∀ (m : List (String × JVal)) (acc out : List (String × DeviceData)),
      devicesGo m acc = .ok out → (acc.map Prod.fst).Nodup →
      (out.map Prod.fst).Nodup := by
  intro m
  induction m with
  | nil =>
    intro acc out hm hacc
    simp [devicesGo] at hm
    subst hm
    exact hacc
  | cons p t ih =>
    intro acc out hm hacc
    cases hdd : parseDeviceObjOf p.2 with
    | error e => simp [devicesGo, hdd, Bind.bind, Except.bind] at hm
    | ok dd =>
      cases hu : uuidKeyOf p.2 with
      | error e => simp [devicesGo, hdd, hu, Bind.bind, Except.bind] at hm
      | ok u =>
        have hm2 : devicesGo t (dinsert acc u dd) = .ok out := by
          simpa [devicesGo, hdd, hu, Bind.bind, Except.bind] using hm
        exact ih (dinsert acc u dd) out hm2 (dinsert_keys_nodup acc u dd hacc)

theorem dcontains_eq_of_keys_eq {β : Type} (d1 d2 : List (String × β))
    (h : d1.map Prod.fst = d2.map Prod.fst) (k : String) :
    dcontains d1 k = dcontains d2 k := by
  cases hc2 : dcontains d2 k with
  | true =>
    exact (mem_keys_iff_dcontains d1 k).mp
      (by rw [h]; exact (mem_keys_iff_dcontains d2 k).mpr hc2)
  | false =>
    cases hc1 : dcontains d1 k with
    | false => rfl
    | true =>
      have hmem := (mem_keys_iff_dcontains d1 k).mpr hc1
      rw [h] at hmem
      rw [(mem_keys_iff_dcontains d2 k).mp hmem] at hc2
      exact hc2

/-- Claim C6: the merge stage of `get_devices` unions the controller and
edge maps, overlays status fields with precedence for every shared key,
and never duplicates a key: (i) the merged key set is exactly the union
of the controller and edge key sets; (ii) merged keys stay duplicate-free
when the inputs are; (iii) a field present in the status record wins;
(iv) a field absent from the status record falls back to the unioned
record's field; (v) a key with no status record keeps its unioned record
unchanged. -/
theorem claim_C6 (c v s m : List (String × JVal)) (hm : mergeRaw c v s = .ok m) :
    (∀ k : String, dcontains m k = (dcontains c k || dcontains v k))
    ∧ ((c.map Prod.fst).Nodup → (v.map Prod.fst).Nodup →
        (m.map Prod.fst).Nodup)
    ∧ (∀ (k f : String) (mo so : JObj) (x : JVal),
        dlookup (dunion c v) k = some (.jobj mo) →
        dlookup s k = some (.jobj so) → so.olookup f = some x →
        ∃ ro : JObj, dlookup m k = some (.jobj ro) ∧ ro.olookup f = some x)
    ∧ (∀ (k f : String) (mo so : JObj),
        dlookup (dunion c v) k = some (.jobj mo) →
        dlookup s k = some (.jobj so) → so.olookup f = none →
        ∃ ro : JObj, dlookup m k = some (.jobj ro)
          ∧ ro.olookup f = mo.olookup f)
    ∧ (∀ (k : String) (w : JVal), dlookup (dunion c v) k = some w →
        dlookup s k = none → dlookup m k = some w) := by
  have hkeys := overlayStatuses_keys s (dunion c v) m hm
  refine ⟨?_, ?_, ?_, ?_, ?_⟩
  · intro k
    rw [dcontains_eq_of_keys_eq m (dunion c v) hkeys k, dcontains_dunion]
  · intro hnc hnv
    rw [hkeys]
    exact dunion_keys_nodup c v hnc hnv
  · intro k f mo so x hdu hds hso
    refine ⟨JObj.ounion mo so, ?_, ?_⟩
    · exact (overlayStatuses_lookup s (dunion c v) m hm k).2.2
        (.jobj mo) (.jobj so) (.jobj (JObj.ounion mo so)) hdu hds rfl
    · rw [olookup_ounion, if_pos (by simp [JObj.ocontains, hso])]
      exact hso
  · intro k f mo so hdu hds hso
    refine ⟨JObj.ounion mo so, ?_, ?_⟩
    · exact (overlayStatuses_lookup s (dunion c v) m hm k).2.2
        (.jobj mo) (.jobj so) (.jobj (JObj.ounion mo so)) hdu hds rfl
    · rw [olookup_ounion, if_neg (by simp [JObj.ocontains, hso])]
  · intro k w hdu hds
    exact (overlayStatuses_lookup s (dunion c v) m hm k).2.1 w hdu hds

theorem claim_C6_witness :
    (∃ ro : JObj, dlookup mergedExample "A" = some (.jobj ro)
      ∧ ro.olookup "X" = some (.jstr "x"))
    ∧ dlookup mergedExample "B" = some (.jobj recB)
    ∧ recB.olookup "X" = none
    ∧ (mergedExample.map Prod.fst).Nodup := by
  have h := claim_C6 [("A", .jobj recA)] [("B", .jobj recB)]
    [("A", .jobj recAstatus)] mergedExample rfl
  exact ⟨h.2.2.1 "A" "X" recA recAstatus (.jstr "x") rfl rfl rfl,
    h.2.2.2.2 "B" (.jobj recB) rfl rfl, rfl, h.2.1 (by decide) (by decide)⟩

/-- Claim C10: when the same uuid occurs in both the controller and the
edge dict, the union keeps exactly one entry for it — the edge record
wholesale (`controllers | vedges` lets the right operand win) — so every
field present in both raw records resolves to the edge record's value;
with no status overlay for that uuid the final merged dict still maps it
to the edge record, exactly once. -/
theorem claim_C10 (c v s m : List (String × JVal)) (u : String) (rc rv : JVal)
    (hnc : (c.map Prod.fst).Nodup) (hnv : (v.map Prod.fst).Nodup)
    (hc : dlookup c u = some rc) (hv : dlookup v u = some rv)
    (hs : dlookup s u = none) (hm : mergeRaw c v s = .ok m) :
    dlookup (dunion c v) u = some rv
    ∧ dlookup m u = some rv
    ∧ (m.map Prod.fst).count u = 1
    ∧ (∀ (f : String) (oc ov : JObj) (xc xv : JVal), rc = .jobj oc →
        rv = .jobj ov → oc.olookup f = some xc → ov.olookup f = some xv →
        ∃ ro : JObj, dlookup m u = some (.jobj ro)
          ∧ ro.olookup f = some xv) := by
  have hdu : dlookup (dunion c v) u = some rv := by
    rw [dlookup_dunion, if_pos (by simp [dcontains, hv])]
    exact hv
  have h1 : dlookup m u = some rv :=
    (overlayStatuses_lookup s (dunion c v) m hm u).2.1 rv hdu hs
  have hkeys := overlayStatuses_keys s (dunion c v) m hm
  refine ⟨hdu, h1, ?_, ?_⟩
  · rw [hkeys, dunion_keys, List.count_append]
    have hmemc : u ∈ c.map Prod.fst :=
      (mem_keys_iff_dcontains c u).mpr (by simp [dcontains, hc])
    have hone : (c.map Prod.fst).count u = 1 :=
      List.count_eq_one_of_mem hnc hmemc
    have hzero : ((dkeepNew v c).map Prod.fst).count u = 0 :=
      List.count_eq_zero.mpr
        (dkeepNew_keys_not_mem v c u (by simp [dcontains, hc]))
    omega
  · intro f oc ov xc xv hrc hrv hoc hov
    subst hrv
    exact ⟨ov, h1, hov⟩

theorem claim_C10_witness :
    dlookup (dunion [("U", JVal.jobj recU_ctrl)] [("U", JVal.jobj recU_edge)]) "U"
      = some (.jobj recU_edge)
    ∧ dlookup [("U", JVal.jobj recU_edge)] "U" = some (.jobj recU_edge)
    ∧ (([("U", JVal.jobj recU_edge)] : List (String × JVal)).map Prod.fst).count "U" = 1
    ∧ (∃ ro : JObj, dlookup [("U", JVal.jobj recU_edge)] "U" = some (.jobj ro)
        ∧ ro.olookup "deviceConfig" = some (.jstr "new")) := by
  have h := claim_C10 [("U", .jobj recU_ctrl)] [("U", .jobj recU_edge)] []
    [("U", .jobj recU_edge)] "U" (.jobj recU_ctrl) (.jobj recU_edge)
    (by decide) (by decide) rfl rfl rfl rfl
  exact ⟨h.1, h.2.1, h.2.2.1,
    h.2.2.2 "deviceConfig" recU_ctrl recU_edge (.jstr "old") (.jstr "new")
      rfl rfl rfl rfl⟩

/-- Claim C7 (amended): for a merged raw record, every optional field is
extracted by presence-checking — absence yields the neutral default
(`None` for identifiers/strings, `0.0` for the coordinates, `False` for
the flags) without raising — except the validity flag: `v["validity"]`
is an unconditional subscript, so a record lacking `validity` makes the
construction raise `KeyError`. -/
theorem claim_C7 :
    (∀ (o : JObj) (u p val : JVal),
      o.olookup "uuid" = some u → o.olookup "personality" = some p →
      o.olookup "validity" = some val →
      o.olookup "system-ip" = none → o.olookup "host-name" = none →
      o.olookup "site-id" = none → o.olookup "deviceModel" = none →
      o.olookup "version" = none → o.olookup "templateId" = none →
      o.olookup "template" = none → o.olookup "managed-by" = none →
      o.olookup "configStatusMessage" = none →
      o.olookup "reachability" = none →
      o.olookup "latitude" = none → o.olookup "longitude" = none →
      parseDeviceObj o = .ok ⟨u, p, none, none, none, none, none, none, none,
        false, jvalBeqStr val "valid", false, false, o, .jnum 0, .jnum 0⟩)
    ∧ (∀ (o : JObj) (u p : JVal),
      o.olookup "uuid" = some u → o.olookup "personality" = some p →
      o.olookup "system-ip" = none → o.olookup "deviceModel" = none →
      o.olookup "validity" = none →
      parseDeviceObj o = .error .keyError) := by
  constructor
  · intro o u p val h1 h2 h3 h4 h5 h6 h7 h8 h9 h10 h11 h12 h13 h14 h15
    simp [parseDeviceObj, oindex, h1, h2, h3, h4, h5, h6, h7, h8, h9, h10,
      h11, h12, h13, h14, h15, Bind.bind, Except.bind, pure, Except.pure]
  · intro o u p h1 h2 h3 h4 h5
    simp [parseDeviceObj, oindex, h1, h2, h3, h4, h5, Bind.bind, Except.bind,
      pure, Except.pure]

theorem claim_C7_witness :
    parseDeviceObj recMinimal
      = .ok ⟨.jstr "u1", .jstr "vsmart", none, none, none, none, none, none,
        none, false, jvalBeqStr (.jstr "valid") "valid", false, false,
        recMinimal, .jnum 0, .jnum 0⟩
    ∧ parseDeviceObj recNoValidity = .error .keyError :=
  ⟨claim_C7.1 recMinimal (.jstr "u1") (.jstr "vsmart") (.jstr "valid")
      rfl rfl rfl rfl rfl rfl rfl rfl rfl rfl rfl rfl rfl rfl rfl,
    claim_C7.2 recNoValidity (.jstr "u1") (.jstr "vedge") rfl rfl rfl rfl rfl⟩

/-- Claim C7 counterexample: a merged record lacking the `validity` key —
the claim says every optional field, the validity flag included, defaults
on absence without error; the code instead raises `KeyError` inside
`DeviceData(...)`, and `get_devices` propagates it. -/
theorem claim_C7_counterexample :
    parseDeviceObj recNoValidity = .error .keyError
    ∧ Vmanage.get_devices true
        (.ok ⟨200, .jobj (.ocons "data"
          (.jarr (.acons (.jobj recNoValidity) .anil)) .onil)⟩)
        (.ok ⟨200, .jobj (.ocons "data" (.jarr .anil) .onil)⟩)
        (.ok ⟨200, .jobj (.ocons "data" (.jarr .anil) .onil)⟩)
      = (true, .error .keyError) :=
  ⟨rfl, rfl⟩

/-- Claim C9 (amended): each per-device normalizer returns "not
available" when the endpoint yields no usable payload, but the falsiness
test `if not raw_data` conflates the empty list with the absent value:
a query that runs and yields zero results also returns "not available",
not an empty list.  A truthy list payload is mapped element-wise. -/
theorem claim_C9 :
    (∀ r, Vmanage.get true r = (true, .ok none) →
      Vmanage.get_device_interfaces true r = (true, .ok none)
      ∧ Vmanage.get_device_tlocs true r = (true, .ok none)
      ∧ Vmanage.get_device_vrrp true r = (true, .ok none))
    ∧ (∀ r, Vmanage.get true r = (true, .ok (some (.jarr .anil))) →
      Vmanage.get_device_interfaces true r = (true, .ok none)
      ∧ Vmanage.get_device_tlocs true r = (true, .ok none)
      ∧ Vmanage.get_device_vrrp true r = (true, .ok none))
    ∧ (∀ (r : Except Unit HttpResp) (l : JArr),
      Vmanage.get true r = (true, .ok (some (.jarr l))) →
      pyFalsy (some (.jarr l)) = false →
      Vmanage.get_device_interfaces true r
        = (true, (l.toListA.mapM parseInterface).map some)) := by
  refine ⟨?_, ?_, ?_⟩
  · intro r h
    refine ⟨?_, ?_, ?_⟩ <;>
      simp [Vmanage.get_device_interfaces, Vmanage.get_device_tlocs,
        Vmanage.get_device_vrrp, normalizeList, h, pyFalsy]
  · intro r h
    refine ⟨?_, ?_, ?_⟩ <;>
      simp [Vmanage.get_device_interfaces, Vmanage.get_device_tlocs,
        Vmanage.get_device_vrrp, normalizeList, h, pyFalsy, jvalFalsy]
  · intro r l h hfal
    simp [Vmanage.get_device_interfaces, normalizeList, h, hfal]

theorem claim_C9_witness :
    Vmanage.get_device_interfaces true (.ok ⟨404, .jnull⟩) = (true, .ok none)
    ∧ Vmanage.get_device_tlocs true
        (.ok ⟨200, .jobj (.ocons "data" (.jarr .anil) .onil)⟩)
      = (true, .ok none)
    ∧ Vmanage.get_device_interfaces true
        (.ok ⟨200, .jobj (.ocons "data"
          (.jarr (.acons (.jobj recIface) .anil)) .onil)⟩)
      = (true, .ok (some [⟨.jstr "ge0/0", .jstr "N/A", .jstr "iface",
          .jstr "00:0c:29:aa:bb:cc", .jstr "0", ⟨10, 0, 0, 5⟩,
          ⟨⟨10, 0, 0, 0⟩, 24⟩, recIface⟩])) :=
  ⟨(claim_C9.1 (.ok ⟨404, .jnull⟩) rfl).1,
    (claim_C9.2.1 (.ok ⟨200, .jobj (.ocons "data" (.jarr .anil) .onil)⟩)
      rfl).2.1,
    claim_C9.2.2 (.ok ⟨200, .jobj (.ocons "data"
      (.jarr (.acons (.jobj recIface) .anil)) .onil)⟩)
      (.acons (.jobj recIface) .anil) rfl rfl⟩

/-- Claim C9 counterexample: an endpoint that runs and yields zero
results (HTTP 200, body `{"data": []}`) makes `get_device_interfaces`
return the "not available" value, not an empty list: `if not raw_data`
is true for Python's empty list, so the two outcomes are conflated. -/
theorem claim_C9_counterexample :
    Vmanage.get_device_interfaces true
        (.ok ⟨200, .jobj (.ocons "data" (.jarr .anil) .onil)⟩)
      = (true, .ok none)
    ∧ ((true, .ok none) : Bool × Except PyExn (Option (List InterfaceData)))
      ≠ (true, .ok (some [])) := by
  refine ⟨rfl, ?_⟩
  intro h
  simp at h
